import Mathlib

/-!
Verification of the cdr-lib document / query-builder core.

This file gives a shallow embedding, in Lean 4, of the parts of the
repository that the specification makes claims about:

* `src/Python/cdrapi/docs.py` — the `Doc` version-resolution logic, the
  `Resolver` callback used during XSLT filtering (in particular its
  restricted dynamic-SQL gate), the `Term` hierarchy cache, and the
  lock/unlock protocol;
* `src/Python/cdrdb2.py` — the `Query` SQL builder (rendering order,
  render caching, condition serialization).

Database interaction is embedded by modelling the handful of tables the
code touches (`doc_version`, `checkout`, ...) as Lean lists and by giving
the SQL each call site issues its standard SQL meaning (in particular, an
aggregate `SELECT MAX(...)` always returns exactly one row, whose single
column is NULL when no rows matched the WHERE clause).

Python exceptions are embedded as `Except String`; the error strings
follow the messages in the source (with quote characters dropped).
-/

/-- Decidable equality for embedded Python results, so that concrete
runs of the embedded code can be checked by `decide`. -/
instance {α β : Type} [DecidableEq α] [DecidableEq β] :
    DecidableEq (Except α β) := fun a b =>
  match a, b with
  | .ok x, .ok y =>
    if h : x = y then .isTrue (by rw [h]) else .isFalse (by simp [h])
  | .error x, .error y =>
    if h : x = y then .isTrue (by rw [h]) else .isFalse (by simp [h])
  | .ok _, .error _ => .isFalse (by simp)
  | .error _, .ok _ => .isFalse (by simp)

namespace CdrDocs

/-! ## The dynamic-SQL keyword gate (`Resolver.UNSAFE`, `run_sql_query`)

`docs.py` lines 874-876 compile the deny-list regular expression from two
adjacent string literals:

    UNSAFE = re.compile(r"insert\s|update\s|delete\s|create\s|alter\s"
                        r"exec[(\s]|execute[(\s]")

Note two things about the pattern actually produced by that source text:

1. the two literals concatenate with **no `|` between them**, so the fifth
   alternative is `alter\sexec[(\s]` (the word `alter` alone, followed by
   whitespace, does not match);
2. `re.compile` is called **without `re.IGNORECASE`**, so the match is
   case-sensitive and upper-case keywords slip through.

The embedding below reproduces that pattern exactly.
-/

/-- Characters matched by the regex class `\s` (ASCII). -/
def isRegexSpace (c : Char) : Bool :=
  c = ' ' || c = '\t' || c = '\n' || c = '\r' ||
    c = Char.ofNat 11 || c = Char.ofNat 12

/-- If `s` is literally a prefix of `cs`, return the rest of `cs`. -/
def matchLit : List Char → List Char → Option (List Char)
  | [], rest => some rest
  | _ :: _, [] => none
  | a :: s, b :: cs => if a = b then matchLit s cs else none

/-- Match `kw` followed by one `\s` character, at the head of `cs`. -/
def matchKeywordSpace (kw : String) (cs : List Char) : Bool :=
  match matchLit kw.data cs with
  | some (c :: _) => isRegexSpace c
  | _ => false

/-- Match `kw` followed by one character of the class `[(\s]`,
at the head of `cs`. -/
def matchKeywordParenSpace (kw : String) (cs : List Char) : Bool :=
  match matchLit kw.data cs with
  | some (c :: _) => c = '(' || isRegexSpace c
  | _ => false

/-- Match the fifth alternative of the compiled pattern,
`alter\sexec[(\s]` (the missing `|` between the two Python string
literals glues `alter\s` onto `exec[(\s]`). -/
def matchAlterExec (cs : List Char) : Bool :=
  match matchLit "alter".data cs with
  | some (c :: rest) => isRegexSpace c && matchKeywordParenSpace "exec" rest
  | _ => false

/-- One alternative of `Resolver.UNSAFE` matches at the head of `cs`. -/
def denylistMatchesAt (cs : List Char) : Bool :=
  matchKeywordSpace "insert" cs ||
  matchKeywordSpace "update" cs ||
  matchKeywordSpace "delete" cs ||
  matchKeywordSpace "create" cs ||
  matchAlterExec cs ||
  matchKeywordParenSpace "execute" cs

/-- Runs `re.search` over the pattern: some alternative matches at some
position of the subject. -/
def denylistSearchList : List Char → Bool
  | [] => false
  | c :: rest => denylistMatchesAt (c :: rest) || denylistSearchList rest

/-- Embeds `Resolver.UNSAFE.search(query)` as a Boolean. -/
def denylistSearch (query : String) : Bool :=
  denylistSearchList query.data

/-- What `Resolver.run_sql_query` hands to the database when all of its
checks pass (`self.cursor.execute(query, tuple(values))`). -/
structure SqlExecution where
  query : String
  values : List String
  deriving Repr, DecidableEq

/-- Python `str.split(sep)` over a character list (always at least one
piece; adjacent separators produce empty pieces). -/
def splitOnChar (sep : Char) : List Char → List (List Char)
  | [] => [[]]
  | c :: rest =>
    if c = sep then [] :: splitOnChar sep rest
    else
      match splitOnChar sep rest with
      | [] => [[c]]
      | h :: t => (c :: h) :: t

/-- Embeds `Resolver.run_sql_query` (docs.py lines 971-983), up to the point
where the query is handed to the cursor.

The argument string is split on the first `~` into the query text and a
`~`-separated value list; the query is rejected if `UNSAFE` matches, then
if its `?` count differs from the number of values.  (`args.split("~", 1)`
followed by `values.split("~")` is exactly the head and tail of the full
split on `~`.) -/
def runSqlQuery (args : String) : Except String SqlExecution :=
  let parts := splitOnChar '~' args.data
  let query := String.mk (parts.headD args.data)
  let values := (parts.tail).map String.mk
  if denylistSearch query then
    .error "query contains disallowed sql keywords"
  else if query.data.count '?' ≠ values.length then
    .error "wrong number of sql query placeholder values"
  else
    .ok { query := query, values := values }

/-! ## Version resolution (`Doc.version`, docs.py lines 125-169)

A document is embedded as its id together with its `doc_version` rows
(version number, `publishable` flag, creation timestamp `dt`).  Dates are
embedded as integers (only their ordering matters to this code);
`dateutil.parser.parse` is an external library and is passed in as a
`parseDate` argument (`none` = the parse raised, as the bare `except`
in `__get_version_before` assumes).
-/

/-- One row of the `doc_version` table for a given document. -/
structure VersionRow where
  num : Nat
  publishable : Bool
  dt : Int
  deriving Repr, DecidableEq

/-- The document data the version-resolution code reads: the `all_docs`
primary key and the rows of `doc_version` for that key.  Python treats a
missing id as falsy, so `id = 0` embeds `not self.id`. -/
structure DocRecord where
  id : Nat
  versions : List VersionRow
  deriving Repr, DecidableEq

/-- The aggregate `SELECT MAX(num)` over a list of rows: NULL (`none`) on the empty
list, otherwise the greatest `num`. -/
def maxNum : List VersionRow → Option Nat
  | [] => none
  | r :: rest =>
    match maxNum rest with
    | none => some r.num
    | some m => some (max r.num m)

/-- Embeds `Doc.last_version`: `SELECT MAX(num) FROM doc_version WHERE id = ?`;
the single aggregate row is NULL when the document has no versions. -/
def lastVersion (doc : DocRecord) : Option Nat :=
  maxNum doc.versions

/-- Embeds `Doc.last_publishable_version` (docs.py lines 329-341):
`SELECT MAX(num) FROM doc_version WHERE id = ? AND publishable = ...Y`. -/
def lastPublishableVersion (doc : DocRecord) : Option Nat :=
  maxNum (doc.versions.filter (fun r => r.publishable))

/-- Embeds `Doc.__get_version_before` (docs.py lines 343-374), with the
`publishable` argument at its default `None` (the only way `Doc.version`
calls it).

The `if not row` guard in the source tests the fetched row itself, not
the value inside it; since the aggregate query always returns exactly one
row, that guard is unreachable and the function returns the rows value
even when it is NULL. -/
def getVersionBefore (doc : DocRecord) (parseDate : String → Option Int)
    (before : String) : Except String (Option Nat) :=
  match parseDate before with
  | none => .error "unrecognized date/time format"
  | some when =>
    let row : Option (Option Nat) :=
      some (maxNum (doc.versions.filter (fun r => r.dt < when)))
    match row with
    | none => .error "no version before the requested date"
    | some v => .ok v

/-- Python lower-casing (ASCII, which is all the version keywords use). -/
def pyLower (s : String) : String :=
  String.mk (s.data.map Char.toLower)

/-- Python `str.startswith`: whether `s` starts with `p`. -/
def strStartsWith (s p : String) : Bool :=
  (matchLit p.data s.data).isSome

/-- Python `s.split(" ", 1)[1]` for a string known to start with
`"before "` or `"label "`: everything after the first space. -/
def afterFirstSpace (s : String) : String :=
  String.mk ((s.data.dropWhile (fun c => c ≠ ' ')).tail)

/-- Value of a list of decimal digit characters. -/
def digitsVal (ds : List Char) : Nat :=
  ds.foldl (fun a c => 10 * a + (c.toNat - 48)) 0

/-- Python `int(s)` for the strings this code can meet: optional sign
followed by decimal digits (surrounding whitespace allowed); `none`
embeds the `ValueError`. -/
def pyInt? (s : String) : Option Int :=
  let t := (s.data.dropWhile (fun c => c = ' ')).reverse
  let t := (t.dropWhile (fun c => c = ' ')).reverse
  match t with
  | '-' :: ds =>
    if ds ≠ [] ∧ ds.all Char.isDigit then some (-(digitsVal ds : Int))
    else none
  | '+' :: ds =>
    if ds ≠ [] ∧ ds.all Char.isDigit then some (digitsVal ds : Int)
    else none
  | ds =>
    if ds ≠ [] ∧ ds.all Char.isDigit then some (digitsVal ds : Int)
    else none

/-- The argument passed for the `version` option: Python accepts an
integer or a string here (`Doc.__init__` docstring, docs.py lines 80-87). -/
inductive VersionSpecArg where
  | int (n : Int)
  | str (s : String)
  deriving Repr, DecidableEq

/-- Embeds `Doc.NOT_VERSIONED` (docs.py line 66). -/
def NOT_VERSIONED : String := "document not versioned"

/-- Embeds `Doc.NO_PUBLISHABLE_VERSIONS` (docs.py line 67). -/
def NO_PUBLISHABLE_VERSIONS : String := "no publishable version found"

/-- The `Doc.version` property (docs.py lines 125-169): resolve the
`version` option to a concrete version number, or `none` for the current
working copy.

Branches in source order: falsy id, absent or falsy option, plain
integer, `current`, `last`/`lastversion`, `lastp` prefix, `before `
prefix, `label ` prefix, bare integer string.  The `label` branch of the
source refers to a name `label` that is never bound
(`self.__get_labeled_version(label)`, line 165), so taking it raises a
`NameError`. -/
def resolveVersion (doc : DocRecord) (parseDate : String → Option Int)
    (spec : Option VersionSpecArg) : Except String (Option Int) :=
  if doc.id = 0 then .ok none
  else
    match spec with
    | none => .ok none
    | some (.int n) =>
      if n = 0 then .ok none
      else .ok (if 0 < n then some n else none)
    | some (.str s) =>
      if s = "" then .ok none
      else
        let v := pyLower s
        if v = "current" then .ok none
        else if v = "last" ∨ v = "lastversion" then
          match lastVersion doc with
          | none => .error NOT_VERSIONED
          | some n =>
            if n = 0 then .error NOT_VERSIONED else .ok (some (n : Int))
        else if strStartsWith v "lastp" then
          match lastPublishableVersion doc with
          | none => .error NO_PUBLISHABLE_VERSIONS
          | some n =>
            if n = 0 then .error NO_PUBLISHABLE_VERSIONS
            else .ok (some (n : Int))
        else if strStartsWith v "before " then
          (getVersionBefore doc parseDate (afterFirstSpace v)).map
            (fun r => r.map (fun n => (n : Int)))
        else if strStartsWith v "label " then
          .error "NameError: name label is not defined"
        else
          match pyInt? v with
          | some n => .ok (some n)
          | none => .error ("invalid version spec " ++ v)

/-! ### Helper lemmas about the embedded string and MAX operations -/

theorem matchLit_eq_some {p cs rest : List Char}
    (h : matchLit p cs = some rest) : cs = p ++ rest := by
  induction p generalizing cs with
  | nil => simpa [matchLit] using h
  | cons a s ih =>
    cases cs with
    | nil => simp [matchLit] at h
    | cons b t =>
      by_cases hab : a = b
      · subst hab
        simp [matchLit] at h
        simpa using ih h
      · simp [matchLit, hab] at h

theorem matchLit_append (p rest : List Char) :
    matchLit p (p ++ rest) = some rest := by
  induction p with
  | nil => simp [matchLit]
  | cons a s ih => simp [matchLit, ih]

theorem maxNum_eq_none {l : List VersionRow} (h : maxNum l = none) :
    l = [] := by
  cases l with
  | nil => rfl
  | cons r rest =>
    rw [maxNum] at h
    cases hrest : maxNum rest with
    | none => rw [hrest] at h; simp at h
    | some m => rw [hrest] at h; simp at h

theorem maxNum_mem {l : List VersionRow} {m : Nat} (h : maxNum l = some m) :
    ∃ r ∈ l, r.num = m := by
  induction l generalizing m with
  | nil => simp [maxNum] at h
  | cons r rest ih =>
    rw [maxNum] at h
    cases hrest : maxNum rest with
    | none =>
      rw [hrest] at h
      simp only [Option.some.injEq] at h
      exact ⟨r, by simp, h⟩
    | some m2 =>
      rw [hrest] at h
      simp only [Option.some.injEq] at h
      rcases max_cases r.num m2 with ⟨hmax, _⟩ | ⟨hmax, _⟩
      · exact ⟨r, by simp, by omega⟩
      · obtain ⟨r2, hr2, hnum⟩ := ih hrest
        exact ⟨r2, by simp [hr2], by omega⟩

theorem maxNum_ge {l : List VersionRow} {m : Nat} (h : maxNum l = some m) :
    ∀ r ∈ l, r.num ≤ m := by
  induction l generalizing m with
  | nil => simp
  | cons r rest ih =>
    rw [maxNum] at h
    intro x hx
    rw [List.mem_cons] at hx
    cases hrest : maxNum rest with
    | none =>
      rw [hrest] at h
      simp only [Option.some.injEq] at h
      rcases hx with hx | hx
      · rw [hx]; omega
      · rw [maxNum_eq_none hrest] at hx; simp at hx
    | some m2 =>
      rw [hrest] at h
      simp only [Option.some.injEq] at h
      rcases hx with hx | hx
      · rw [hx]; omega
      · have := ih hrest x hx
        omega

/-! ### Claim theorems for the resolver SQL gate and version resolution -/

/-- C1: the spec says a query containing any of the deny-listed SQL
keywords, in any letter case, is rejected with the
disallowed-SQL-keyword failure before any SQL runs.  The compiled
pattern is case-sensitive (no `re.IGNORECASE`), so the spec example
query `DELETE FROM x` sails through both checks and is handed to the
cursor for execution; the same query lower-cased is rejected.  (The
missing `|` between the two regex string literals additionally breaks
the `alter` alternative, so even the lower-case `alter table x`
reaches the cursor.) -/
theorem C1_keyword_gate_case_sensitive :
    runSqlQuery "DELETE FROM x" =
      .ok { query := "DELETE FROM x", values := [] } ∧
    runSqlQuery "delete from x" =
      .error "query contains disallowed sql keywords" ∧
    runSqlQuery "alter table x" =
      .ok { query := "alter table x", values := [] } := by
  refine ⟨by decide, by decide, by decide⟩

theorem strStartsWith_data {s p : String} (h : strStartsWith s p = true) :
    ∃ rest, s.data = p.data ++ rest := by
  unfold strStartsWith at h
  cases hm : matchLit p.data s.data with
  | none => rw [hm] at h; simp at h
  | some rest => exact ⟨rest, matchLit_eq_some hm⟩

/-- Reduce `resolveVersion` to its `lastp` branch when the lowered
version specifier starts with `lastp`. -/
theorem resolveVersion_lastp_branch {doc : DocRecord}
    {pd : String → Option Int} {s : String}
    (hid : doc.id ≠ 0)
    (hs : strStartsWith (pyLower s) "lastp" = true) :
    resolveVersion doc pd (some (.str s)) =
      (match lastPublishableVersion doc with
       | none => .error NO_PUBLISHABLE_VERSIONS
       | some n =>
         if n = 0 then .error NO_PUBLISHABLE_VERSIONS
         else .ok (some (n : Int))) := by
  obtain ⟨rest, hdata⟩ := strStartsWith_data hs
  have hlastp : "lastp".data = ['l', 'a', 's', 't', 'p'] := rfl
  rw [hlastp] at hdata
  have hs0 : ¬(s = "") := by
    intro h
    subst h
    have : (pyLower "").data = [] := rfl
    rw [this] at hdata
    simp at hdata
  have hcur : ¬(pyLower s = "current") := by
    intro h
    have := congrArg String.data h
    rw [hdata] at this
    simp at this
  have hlast : ¬(pyLower s = "last" ∨ pyLower s = "lastversion") := by
    rintro (h | h) <;> (
      have hd := congrArg String.data h
      rw [hdata] at hd
      simp at hd)
  rw [resolveVersion]
  rw [if_neg hid]
  simp only [if_neg hs0, if_neg hcur, if_neg hlast, if_pos hs]

/-- C2: for a version specifier that (case-folded) starts with `lastp`,
resolution returns the greatest version number flagged publishable, and
fails with the no-publishable-version error exactly when the document
has no publishable version; it never resolves to a version that is not
flagged publishable. -/
theorem C2_lastp_resolution (doc : DocRecord) (pd : String → Option Int)
    (s : String)
    (hid : doc.id ≠ 0)
    (hpos : ∀ r ∈ doc.versions, 1 ≤ r.num)
    (hs : strStartsWith (pyLower s) "lastp" = true) :
    (∃ v : Nat,
        resolveVersion doc pd (some (.str s)) = .ok (some (v : Int)) ∧
        (∃ r ∈ doc.versions, r.publishable = true ∧ r.num = v) ∧
        (∀ r ∈ doc.versions, r.publishable = true → r.num ≤ v)) ∨
    (resolveVersion doc pd (some (.str s)) = .error NO_PUBLISHABLE_VERSIONS ∧
        ∀ r ∈ doc.versions, r.publishable = false) := by
  rw [resolveVersion_lastp_branch hid hs]
  cases hlp : lastPublishableVersion doc with
  | none =>
    right
    refine ⟨rfl, ?_⟩
    have hfil : doc.versions.filter (fun r => r.publishable) = [] :=
      maxNum_eq_none hlp
    intro r hr
    by_contra hpub
    have : r ∈ doc.versions.filter (fun r => r.publishable) := by
      rw [List.mem_filter]
      exact ⟨hr, by simpa using hpub⟩
    rw [hfil] at this
    simp at this
  | some n =>
    left
    obtain ⟨r, hrmem, hrnum⟩ := maxNum_mem hlp
    rw [List.mem_filter] at hrmem
    have hn : ¬(n = 0) := by
      have := hpos r hrmem.1
      omega
    refine ⟨n, by simp [hn], ⟨r, hrmem.1, by simpa using hrmem.2, hrnum⟩, ?_⟩
    intro x hx hxpub
    exact maxNum_ge hlp x (by rw [List.mem_filter]; exact ⟨hx, by simp [hxpub]⟩)

/-- Witness for C2 at a concrete document: two versions, only the first
publishable; `lastp` resolves to version 1. -/
theorem C2_lastp_resolution_witness :
    (∃ v : Nat,
        resolveVersion ⟨7, [⟨1, true, 0⟩, ⟨2, false, 1⟩]⟩ (fun _ => none)
            (some (.str "lastp")) = .ok (some (v : Int)) ∧
        (∃ r ∈ ([⟨1, true, 0⟩, ⟨2, false, 1⟩] : List VersionRow),
            r.publishable = true ∧ r.num = v) ∧
        (∀ r ∈ ([⟨1, true, 0⟩, ⟨2, false, 1⟩] : List VersionRow),
            r.publishable = true → r.num ≤ v)) ∨
    (resolveVersion ⟨7, [⟨1, true, 0⟩, ⟨2, false, 1⟩]⟩ (fun _ => none)
        (some (.str "lastp")) = .error NO_PUBLISHABLE_VERSIONS ∧
        ∀ r ∈ ([⟨1, true, 0⟩, ⟨2, false, 1⟩] : List VersionRow),
            r.publishable = false) :=
  C2_lastp_resolution ⟨7, [⟨1, true, 0⟩, ⟨2, false, 1⟩]⟩ (fun _ => none)
    "lastp" (by decide) (by decide) (by decide)

theorem string_data_append (a b : String) : (a ++ b).data = a.data ++ b.data :=
  rfl

theorem string_mk_data (s : String) : String.mk s.data = s := rfl

theorem afterFirstSpace_before (d : String) :
    afterFirstSpace ("before " ++ d) = d := by
  have h : ("before " ++ d).data = ['b', 'e', 'f', 'o', 'r', 'e', ' '] ++ d.data :=
    string_data_append "before " d
  unfold afterFirstSpace
  rw [h]
  simp [List.dropWhile]

/-- Reduce `resolveVersion` to its `before ` branch. -/
theorem resolveVersion_before_branch {doc : DocRecord}
    {pd : String → Option Int} {s d : String}
    (hid : doc.id ≠ 0)
    (hv : pyLower s = "before " ++ d) :
    resolveVersion doc pd (some (.str s)) =
      (getVersionBefore doc pd d).map (fun r => r.map (fun n => (n : Int))) := by
  have hdata : (pyLower s).data = ['b', 'e', 'f', 'o', 'r', 'e', ' '] ++ d.data := by
    rw [hv]; exact string_data_append "before " d
  have hs0 : ¬(s = "") := by
    intro h
    subst h
    have : (pyLower "").data = [] := rfl
    rw [this] at hdata
    simp at hdata
  have hcur : ¬(pyLower s = "current") := by
    intro h
    have := congrArg String.data h
    rw [hdata] at this
    simp at this
  have hlast : ¬(pyLower s = "last" ∨ pyLower s = "lastversion") := by
    rintro (h | h) <;> (
      have hd := congrArg String.data h
      rw [hdata] at hd
      simp at hd)
  have hlp : ¬(strStartsWith (pyLower s) "lastp" = true) := by
    unfold strStartsWith
    rw [hdata]
    simp [matchLit]
  have hbefore : strStartsWith (pyLower s) "before " = true := by
    unfold strStartsWith
    rw [hdata]
    have : ("before ").data = ['b', 'e', 'f', 'o', 'r', 'e', ' '] := rfl
    rw [this, matchLit_append]
    rfl
  have hafter : afterFirstSpace (pyLower s) = d := by
    rw [hv]; exact afterFirstSpace_before d
  rw [resolveVersion]
  rw [if_neg hid]
  simp only [if_neg hs0, if_neg hcur, if_neg hlast, if_neg hlp, if_pos hbefore,
    hafter]

/-- C6 counterexample: a document whose only version was created at
time 5, asked for the latest version strictly before time 3.  The spec
says this must fail; the code resolves it to `None` (the current
working copy) with no error, because the `if not row` guard in
`__get_version_before` tests the aggregate row (always present) rather
than the NULL inside it. -/
theorem C6_before_counterexample :
    resolveVersion ⟨1, [⟨1, true, 5⟩]⟩ (fun _ => some 3)
      (some (.str "before 2020-01-01")) = .ok none := by decide

/-- C6 amended: for a `before <date>` specifier whose date parses,
resolution returns the greatest version number created strictly before
the parsed date; when no version predates it, resolution quietly
yields the current working copy (`none`) instead of failing. -/
theorem C6_before_resolution (doc : DocRecord) (pd : String → Option Int)
    (s d : String) (w : Int)
    (hid : doc.id ≠ 0)
    (hv : pyLower s = "before " ++ d)
    (hw : pd d = some w) :
    (∃ v : Nat,
        resolveVersion doc pd (some (.str s)) = .ok (some (v : Int)) ∧
        (∃ r ∈ doc.versions, r.dt < w ∧ r.num = v) ∧
        (∀ r ∈ doc.versions, r.dt < w → r.num ≤ v)) ∨
    (resolveVersion doc pd (some (.str s)) = .ok none ∧
        ∀ r ∈ doc.versions, ¬(r.dt < w)) := by
  have hparsed : getVersionBefore doc pd d =
      .ok (maxNum (doc.versions.filter (fun r => decide (r.dt < w)))) := by
    unfold getVersionBefore
    rw [hw]
  rw [resolveVersion_before_branch hid hv, hparsed]
  cases hmax : maxNum (doc.versions.filter (fun r => decide (r.dt < w))) with
  | none =>
    right
    have hfil := maxNum_eq_none hmax
    refine ⟨rfl, ?_⟩
    intro r hr hlt
    have : r ∈ doc.versions.filter (fun r => decide (r.dt < w)) := by
      rw [List.mem_filter]
      exact ⟨hr, by simpa using hlt⟩
    rw [hfil] at this
    simp at this
  | some n =>
    left
    obtain ⟨r, hrmem, hrnum⟩ := maxNum_mem hmax
    rw [List.mem_filter] at hrmem
    refine ⟨n, rfl, ⟨r, hrmem.1, by simpa using hrmem.2, hrnum⟩, ?_⟩
    intro x hx hlt
    exact maxNum_ge hmax x
      (by rw [List.mem_filter]; exact ⟨hx, by simpa using hlt⟩)

/-- Witness for C6 amended: two versions created at times 2 and 10; the
latest one before time 5 is version 1. -/
theorem C6_before_resolution_witness :
    (∃ v : Nat,
        resolveVersion ⟨3, [⟨1, true, 2⟩, ⟨2, true, 10⟩]⟩
            (fun t => if t = "x" then some 5 else none)
            (some (.str "before x")) = .ok (some (v : Int)) ∧
        (∃ r ∈ ([⟨1, true, 2⟩, ⟨2, true, 10⟩] : List VersionRow),
            r.dt < 5 ∧ r.num = v) ∧
        (∀ r ∈ ([⟨1, true, 2⟩, ⟨2, true, 10⟩] : List VersionRow),
            r.dt < 5 → r.num ≤ v)) ∨
    (resolveVersion ⟨3, [⟨1, true, 2⟩, ⟨2, true, 10⟩]⟩
        (fun t => if t = "x" then some 5 else none)
        (some (.str "before x")) = .ok none ∧
        ∀ r ∈ ([⟨1, true, 2⟩, ⟨2, true, 10⟩] : List VersionRow),
            ¬(r.dt < 5)) :=
  C6_before_resolution ⟨3, [⟨1, true, 2⟩, ⟨2, true, 10⟩]⟩
    (fun t => if t = "x" then some 5 else none) "before x" "x" 5
    (by decide) (by decide) (by decide)

/-! ## Locking (`Doc.lock` lines 448-466, `Doc.unlock` lines 432-446)

The `checkout` table holds at most one open row per document (a row with
`dt_in IS NULL`); it is embedded as `Option String`, the account holding
the open lock.  The session is embedded as the acting account name plus
the outcomes of the `can_do` capability checks the two methods consult.

`Doc.lock` as written refers to the unbound names `session` (line 453,
for `self.session`) and `self.user_id` (line 461, for the session
accounts id); the embedding reads them as the session and its user,
which is the only referent the surrounding code offers.  Even read that
way, the body fetches the open checkout row and then: returns silently
when the holder is the same user, returns silently when the holder is a
different user and no force flag is given, and never executes an INSERT
into `checkout` in any path (its own docstring says "Add a row to the
`checkout` table for this document"). -/

structure Session where
  user : String
  canModifyDoc : Bool
  canForceCheckout : Bool
  canForceUnlock : Bool
  deriving Repr, DecidableEq

/-- Embeds `Doc.lock` as written (docs.py lines 448-466).  Returns the open
checkout row after the call (the code never modifies the table). -/
def lock (sess : Session) (openLock : Option String) (force : Bool) :
    Except String (Option String) :=
  if ¬sess.canModifyDoc then
    .error "User not authorized to modify document"
  else
    match openLock with
    | some user =>
      if user = sess.user then
        .ok (some user)
      else if force then
        if ¬sess.canForceCheckout then
          .error "User not authorized to force checkout"
        else
          -- `self.unlock(abandon=True, force=True)`: `Doc.unlock` has a
          -- docstring but no executable body, so the call does nothing;
          -- `lock` then falls off the end of the function.
          .ok (some user)
      else
        -- different holder, no force flag: the function just falls off
        -- the end; no AlreadyLocked failure is raised.
        .ok (some user)
    | none =>
      -- no open lock: the function falls off the end; no checkout row
      -- is inserted.
      .ok none

/-- C3: the spec says a second `lock()` by the same user is a no-op and
a `lock()` by a different user without force fails with AlreadyLocked.
The same-user call is indeed a silent no-op, but the different-user call
also returns silently: `Doc.lock` has no AlreadyLocked branch at all,
and no path of the method inserts a checkout row. -/
theorem C3_lock_no_already_locked :
    lock ⟨"B", true, true, true⟩ (some "A") false = .ok (some "A") ∧
    lock ⟨"A", true, true, true⟩ (some "A") false = .ok (some "A") ∧
    lock ⟨"B", true, true, true⟩ none false = .ok none := by
  refine ⟨by decide, by decide, by decide⟩

/-- Modelled from the spec: `Doc.unlock` in `src/Python/cdrapi/docs.py`
(lines 432-446) consists solely of a docstring describing the intended
behaviour — the executable body is missing.  This definition follows the
spec (and that docstring): fail with NotLocked when no open checkout row
exists; when the lock is held by another account, require the force flag
and then the force-unlock capability, else fail with Unauthorized;
otherwise close the lock row. -/
def unlockSpec (sess : Session) (openLock : Option String) (force : Bool) :
    Except String (Option String) :=
  match openLock with
  | none => .error "NotLocked"
  | some user =>
    if user = sess.user then
      .ok none
    else if ¬force then
      .error "Unauthorized"
    else if ¬sess.canForceUnlock then
      .error "Unauthorized"
    else
      .ok none

/-- C8: unlocking an unlocked document fails with NotLocked, and
unlocking a document locked by a different user fails with Unauthorized
unless both the force flag and the force-unlock capability are
present. -/
theorem C8_unlock_protocol (sess : Session) (user : String) (force : Bool)
    (hdiff : ¬(user = sess.user))
    (hweak : force = false ∨ sess.canForceUnlock = false) :
    unlockSpec sess none force = .error "NotLocked" ∧
    unlockSpec sess (some user) force = .error "Unauthorized" := by
  refine ⟨rfl, ?_⟩
  show (if user = sess.user then Except.ok none
    else if ¬force = true then Except.error "Unauthorized"
    else if ¬sess.canForceUnlock = true then Except.error "Unauthorized"
    else Except.ok none) = Except.error "Unauthorized"
  rw [if_neg hdiff]
  rcases hweak with h | h
  · subst h
    simp
  · cases force with
    | false => simp
    | true => simp [h]

/-- Witness for C8: user B unlocking a document held by A, without the
force flag. -/
theorem C8_unlock_protocol_witness :
    unlockSpec ⟨"B", true, true, true⟩ none false = .error "NotLocked" ∧
    unlockSpec ⟨"B", true, true, true⟩ (some "A") false =
      .error "Unauthorized" :=
  C8_unlock_protocol ⟨"B", true, true, true⟩ "A" false (by decide)
    (Or.inl rfl)

/-! ## Term hierarchy resolution (`Term`, docs.py lines 1055-1158)

`Term.__init__` loads the latest publishable version of a Term document,
reads its preferred name, PDQ key and term-type markers, and resolves
each declared parent reference through `Term.get_term` at `depth + 1`;
`get_term` raises the depth failure whenever it is entered with
`depth > MAX_DEPTH`.  What the constructor reads from the document is
embedded as `TermDoc`; `none` for a whole document embeds the case where
loading the `lastp` version raises the no-publishable-version failure,
which the constructor catches, leaving the name `None` so that
`get_term` returns `None`.

(The parent loop at line 1077 spells its source `root.findall(...)`
where every neighbouring line uses `doc.root`; the embedding reads it as
`doc.root`, the only name in scope.)

The claim under study (C9) concerns the depth bound only, so `get_term`
is embedded with the class cache disabled — `use_cache == 0` and
`terms == {}` make both `with cls.lock` blocks of the source no-ops.
The cache itself is modelled separately below for C10. -/

/-- Embeds `Term.MAX_DEPTH` (docs.py line 1056). -/
def MAX_DEPTH : Nat := 15

/-- What `Term.__init__` reads from the latest publishable version of a
Term document: preferred name, optional PDQ key, term-type names, and
the parent document ids in document order. -/
structure TermDoc where
  name : Option String
  pdqKey : Option String
  termTypes : List String
  parentIds : List Nat

/-- A resolved Term: document id, name, PDQ key, inclusion flag, and
the dictionary of ancestors keyed by document id (`include` is a Lean
keyword, hence `includeFlag`). -/
inductive Term where
  | mk (docId : Nat) (name : Option String) (pdqKey : Option String)
       (includeFlag : Bool) (parents : List (Nat × Term))

def Term.docId : Term → Nat
  | .mk i _ _ _ _ => i

def Term.name : Term → Option String
  | .mk _ n _ _ _ => n

def Term.parents : Term → List (Nat × Term)
  | .mk _ _ _ _ p => p

/-- Membership test `doc_id in self.parents`. -/
def dictHasKey (m : List (Nat × Term)) (k : Nat) : Bool :=
  m.any (fun p => p.1 = k)

/-- Assignment `self.parents[doc_id] = term` (overwrite if present, append
otherwise, as a Python dict). -/
def dictSet (m : List (Nat × Term)) (k : Nat) (v : Term) :
    List (Nat × Term) :=
  if dictHasKey m k then m.map (fun p => if p.1 = k then (k, v) else p)
  else m ++ [(k, v)]

/-- Dict merge `self.parents.update(other)`. -/
def dictUpdate (m : List (Nat × Term)) (entries : List (Nat × Term)) :
    List (Nat × Term) :=
  entries.foldl (fun acc p => dictSet acc p.1 p.2) m

/-- Python truthiness of the name (`if not term.name`): `None` and the
empty string are falsy. -/
def pyTruthyName : Option String → Bool
  | none => false
  | some s => s ≠ ""

/-- The term-type scan of `Term.__init__` (lines 1073-1076): the term is
excluded when any term-type marker is `Header term` or `Obsolete term`. -/
def includeTerm (types : List String) : Bool :=
  ¬types.any (fun t => t = "Header term" || t = "Obsolete term")

mutual

/-- Embeds `Term.get_term` (docs.py lines 1124-1143) with the class cache
disabled: raise the depth failure when entered beyond `MAX_DEPTH`,
otherwise construct the term (resolving parents at `depth + 1`) and
collapse nameless terms to `None`. -/
def getTerm (docs : Nat → Option TermDoc) (docId : Nat) (depth : Nat) :
    Except String (Option Term) :=
  if MAX_DEPTH < depth then
    .error "term hierarchy depth exceeded at CDR()"
  else
    match docs docId with
    | none => .ok none
    | some td =>
      match getParents docs td.parentIds (depth + 1) [] with
      | .error e => .error e
      | .ok parents =>
        let t := Term.mk docId td.name td.pdqKey
          (includeTerm td.termTypes) parents
        .ok (if pyTruthyName td.name then some t else none)
termination_by (MAX_DEPTH + 2 - depth, 1, 0)

/-- The parent loop of `Term.__init__`/`Term.get_parent` (lines
1077-1078, 1113-1123): resolve each parent id in document order,
skipping ids already in the dictionary, folding each resolved parents
own ancestors into the dictionary before the parent itself.
`childDepth` is `depth + 1` of the term under construction. -/
def getParents (docs : Nat → Option TermDoc) (ids : List Nat)
    (childDepth : Nat) (acc : List (Nat × Term)) :
    Except String (List (Nat × Term)) :=
  match ids with
  | [] => .ok acc
  | pid :: rest =>
    if dictHasKey acc pid then getParents docs rest childDepth acc
    else
      match getTerm docs pid childDepth with
      | .error e => .error e
      | .ok none => getParents docs rest childDepth acc
      | .ok (some parent) =>
        getParents docs rest childDepth
          (dictSet (dictUpdate acc parent.parents) pid parent)
termination_by (MAX_DEPTH + 2 - childDepth, 2, ids.length)

end

/-- A linear parent chain for exercising the depth bound: documents
`0 .. len`, document `i` declaring `i + 1` as its only parent, every
document named and included. -/
def chainDocs (len : Nat) : Nat → Option TermDoc := fun i =>
  if i ≤ len then
    some { name := some "term", pdqKey := none, termTypes := [],
           parentIds := if i < len then [i + 1] else [] }
  else none

theorem getTerm_deep {docs : Nat → Option TermDoc} {docId depth : Nat}
    (h : MAX_DEPTH < depth) :
    getTerm docs docId depth =
      .error "term hierarchy depth exceeded at CDR()" := by
  rw [getTerm.eq_def, if_pos h]

theorem getTerm_step {docs : Nat → Option TermDoc} {docId depth : Nat}
    {td : TermDoc} (h : ¬MAX_DEPTH < depth) (hdoc : docs docId = some td) :
    getTerm docs docId depth =
      match getParents docs td.parentIds (depth + 1) [] with
      | .error e => .error e
      | .ok parents =>
        .ok (if pyTruthyName td.name then
              some (Term.mk docId td.name td.pdqKey
                (includeTerm td.termTypes) parents)
             else none) := by
  rw [getTerm.eq_def, if_neg h, hdoc]

theorem getParents_nil (docs : Nat → Option TermDoc) (childDepth : Nat)
    (acc : List (Nat × Term)) :
    getParents docs [] childDepth acc = .ok acc := by
  rw [getParents.eq_def]

theorem getParents_cons_new {docs : Nat → Option TermDoc}
    {pid : Nat} {rest : List Nat} {childDepth : Nat}
    {acc : List (Nat × Term)} (h : dictHasKey acc pid = false) :
    getParents docs (pid :: rest) childDepth acc =
      match getTerm docs pid childDepth with
      | .error e => .error e
      | .ok none => getParents docs rest childDepth acc
      | .ok (some parent) =>
        getParents docs rest childDepth
          (dictSet (dictUpdate acc parent.parents) pid parent) := by
  rw [getParents.eq_def]
  simp [h]

theorem chain_ok (len : Nat) :
    ∀ rem k d, k + rem = len → d + rem ≤ MAX_DEPTH →
      ∃ t, getTerm (chainDocs len) k d = .ok (some t) := by
  intro rem
  induction rem with
  | zero =>
    intro k d hk hd
    have hk' : k = len := by omega
    have hdoc : chainDocs len k =
        some { name := some "term", pdqKey := none, termTypes := [],
               parentIds := [] } := by
      subst hk'
      simp [chainDocs]
    rw [getTerm_step (by unfold MAX_DEPTH at *; omega) hdoc]
    rw [getParents_nil]
    exact ⟨_, rfl⟩
  | succ n ih =>
    intro k d hk hd
    have hklt : k < len := by omega
    have hdoc : chainDocs len k =
        some { name := some "term", pdqKey := none, termTypes := [],
               parentIds := [k + 1] } := by
      simp [chainDocs, hklt, Nat.le_of_lt hklt]
    obtain ⟨t, ht⟩ := ih (k + 1) (d + 1) (by omega) (by omega)
    rw [getTerm_step (by unfold MAX_DEPTH at *; omega) hdoc]
    refine ⟨Term.mk k (some "term") none (includeTerm [])
      (dictSet (dictUpdate [] t.parents) (k + 1) t), ?_⟩
    show (match getParents (chainDocs len) [k + 1] (d + 1) [] with
      | Except.error e => Except.error e
      | Except.ok parents =>
        Except.ok (if pyTruthyName (some "term") then
              some (Term.mk k (some "term") none (includeTerm []) parents)
             else none)) = _
    rw [getParents_cons_new (by rfl), ht]
    simp [getParents_nil, pyTruthyName]

theorem chain_depth_error (len : Nat) :
    ∀ rem k d, k + rem = len → MAX_DEPTH < d + rem → d ≤ MAX_DEPTH + 1 →
      getTerm (chainDocs len) k d =
        .error "term hierarchy depth exceeded at CDR()" := by
  intro rem
  induction rem with
  | zero =>
    intro k d hk hd hdle
    exact getTerm_deep (by unfold MAX_DEPTH at *; omega)
  | succ n ih =>
    intro k d hk hd hdle
    by_cases hguard : MAX_DEPTH < d
    · exact getTerm_deep hguard
    · have hklt : k < len := by omega
      have hdoc : chainDocs len k =
          some { name := some "term", pdqKey := none, termTypes := [],
                 parentIds := [k + 1] } := by
        simp [chainDocs, hklt, Nat.le_of_lt hklt]
      have ht := ih (k + 1) (d + 1) (by omega) (by omega)
        (by unfold MAX_DEPTH at *; omega)
      rw [getTerm_step hguard hdoc]
      show (match getParents (chainDocs len) [k + 1] (d + 1) [] with
        | Except.error e => Except.error e
        | Except.ok parents =>
          Except.ok (if pyTruthyName (some "term") then
                some (Term.mk k (some "term") none (includeTerm []) parents)
               else none)) =
        Except.error "term hierarchy depth exceeded at CDR()"
      rw [getParents_cons_new (by rfl), ht]

/-- C9: resolving a parent chain of `len` links through `Term.get_term`
succeeds whenever `len` is at most `MAX_DEPTH` (in particular at exactly
`MAX_DEPTH`), and fails with the depth-exceeded error exactly when the
chain makes the recursion depth pass `MAX_DEPTH`. -/
theorem C9_depth_bound (len : Nat) :
    (len ≤ MAX_DEPTH →
      ∃ t, getTerm (chainDocs len) 0 0 = .ok (some t)) ∧
    (MAX_DEPTH < len →
      getTerm (chainDocs len) 0 0 =
        .error "term hierarchy depth exceeded at CDR()") := by
  constructor
  · intro h
    exact chain_ok len len 0 0 (by omega) (by omega)
  · intro h
    exact chain_depth_error len len 0 0 (by omega) (by omega)
      (by unfold MAX_DEPTH; omega)

/-- Witness for C9: a 15-link chain resolves; a 16-link chain hits the
depth failure. -/
theorem C9_depth_bound_witness :
    (∃ t, getTerm (chainDocs 15) 0 0 = .ok (some t)) ∧
    getTerm (chainDocs 16) 0 0 =
      .error "term hierarchy depth exceeded at CDR()" :=
  ⟨(C9_depth_bound 15).1 (by decide), (C9_depth_bound 16).2 (by decide)⟩

/-! ## The Term class cache (`Term.set_cache`, docs.py lines 1144-1158,
and the cache blocks of `Term.get_term`, lines 1129-1142)

The class attributes `use_cache` (an `int` counter of nested enables),
`terms` (a dict of resolved terms keyed by document id, `None` values
included) and `cache_started` (a clock reading) form process-wide state.
The state machine below embeds the two operations that touch it: a
`set_cache(on)` call, and one `get_term` lookup (whose term construction
happens outside the locked blocks and is abstracted as the `result` it
would cache).  Clock readings are passed in as integers. -/

/-- Embeds `Term.MAX_CACHE_AGE` = `datetime.timedelta(1)` (one day), in
seconds. -/
def MAX_CACHE_AGE : Int := 86400

structure TermCacheState where
  useCache : Int
  terms : List (Nat × Option Term)
  cacheStarted : Int

/-- Membership test `doc_id in cls.terms`. -/
def cacheHasKey (m : List (Nat × Option Term)) (k : Nat) : Bool :=
  m.any (fun p => p.1 = k)

/-- Embeds `Term.set_cache` (lines 1144-1158): remember whether the counter was
positive, then either increment it (starting the clock on a rising
edge), or decrement it, clamping at zero and emptying the whole dict
when it reaches zero.  Returns `previous_state` and the new class
state. -/
def setCache (s : TermCacheState) (enable : Bool) (now : Int) :
    Bool × TermCacheState :=
  let previous := decide (0 < s.useCache)
  if enable then
    (previous,
     { s with useCache := s.useCache + 1,
              cacheStarted := if previous then s.cacheStarted else now })
  else
    let u := s.useCache - 1
    let u := if u < 0 then 0 else u
    (previous,
     { s with useCache := u, terms := if u = 0 then [] else s.terms })

/-- The `while cls.use_cache: cls.set_cache(False)` loop of `get_term`
(lines 1133-1134).  Each pass decrements the counter toward zero, so
`natAbs + 1` iterations always suffice; the fuel only bounds this
loop. -/
def drainLoop : Nat → Int → TermCacheState → TermCacheState
  | 0, _, s => s
  | fuel + 1, now, s =>
    if s.useCache ≠ 0 then drainLoop fuel now (setCache s false now).2
    else s

def drainCache (s : TermCacheState) (now : Int) : TermCacheState :=
  drainLoop (s.useCache.natAbs + 1) now s

/-- The cache bookkeeping of one `Term.get_term` call (lines
1129-1142): under the lock, drain the whole cache if it is enabled and
expired, then return the cached entry on a hit; otherwise construct the
term (abstracted to `result`) and, under the lock again, record it only
when caching is on and the key is still absent. -/
def getTermCacheStep (s : TermCacheState) (now : Int) (docId : Nat)
    (result : Option Term) : TermCacheState :=
  let s1 :=
    if s.useCache ≠ 0 ∧ MAX_CACHE_AGE < now - s.cacheStarted then
      drainCache s now
    else s
  if cacheHasKey s1.terms docId then s1
  else if s1.useCache ≠ 0 ∧ ¬(cacheHasKey s1.terms docId = true) then
    { s1 with terms := s1.terms ++ [(docId, result)] }
  else s1

/-- One interleaved operation against the class-wide cache state. -/
inductive CacheOp where
  | set (enable : Bool) (now : Int)
  | get (docId : Nat) (result : Option Term) (now : Int)

def cacheStep (s : TermCacheState) : CacheOp → TermCacheState
  | .set enable now => (setCache s enable now).2
  | .get docId result now => getTermCacheStep s now docId result

/-- The class attributes start as `use_cache = 0`, `terms = {}`. -/
def initialCacheState : TermCacheState :=
  { useCache := 0, terms := [], cacheStarted := 0 }

def runCacheOps (s : TermCacheState) (ops : List CacheOp) : TermCacheState :=
  ops.foldl cacheStep s

/-- The invariant of C10: the enable counter never goes negative, and
the shared dict is empty whenever the counter is zero. -/
def cacheInv (s : TermCacheState) : Prop :=
  0 ≤ s.useCache ∧ (s.useCache = 0 → s.terms = [])

theorem setCache_preserves {s : TermCacheState} (h : cacheInv s)
    (enable : Bool) (now : Int) : cacheInv ((setCache s enable now).2) := by
  obtain ⟨h0, hterms⟩ := h
  cases enable with
  | true =>
    constructor
    · simp [setCache]; omega
    · intro hzero
      simp [setCache] at hzero
      omega
  | false =>
    by_cases hneg : s.useCache - 1 < 0
    · refine ⟨by simp [setCache, hneg], ?_⟩
      intro _
      simp [setCache, hneg]
    · refine ⟨by simp [setCache, hneg]; omega, ?_⟩
      intro hzero
      simp [setCache, hneg] at hzero ⊢
      simp [hzero]

theorem drainLoop_preserves {s : TermCacheState} (h : cacheInv s)
    (fuel : Nat) (now : Int) : cacheInv (drainLoop fuel now s) := by
  induction fuel generalizing s with
  | zero => exact h
  | succ n ih =>
    rw [drainLoop]
    by_cases hz : s.useCache ≠ 0
    · rw [if_pos hz]
      exact ih (setCache_preserves h false now)
    · rw [if_neg hz]
      exact h

theorem getTermCacheStep_preserves {s : TermCacheState} (h : cacheInv s)
    (now : Int) (docId : Nat) (result : Option Term) :
    cacheInv (getTermCacheStep s now docId result) := by
  unfold getTermCacheStep
  set s1 := if s.useCache ≠ 0 ∧ MAX_CACHE_AGE < now - s.cacheStarted then
      drainCache s now
    else s with hs1
  have h1 : cacheInv s1 := by
    rw [hs1]
    split
    · exact drainLoop_preserves h _ now
    · exact h
  by_cases hhit : cacheHasKey s1.terms docId = true
  · simpa [hhit] using h1
  · rw [if_neg (by simp [hhit])]
    by_cases hz : s1.useCache = 0
    · rw [if_neg (by simp [hz])]
      exact h1
    · rw [if_pos ⟨hz, by simp [hhit]⟩]
      exact ⟨h1.1, fun hzero => absurd hzero hz⟩

/-- C10: over every interleaving of `set_cache` calls and `get_term`
lookups starting from the pristine class state, the enable counter
stays non-negative and the shared dict is empty whenever the counter is
zero; and every `set_cache` call returns `True` exactly when the
counter was positive before the call. -/
theorem C10_cache_counter_invariant :
    (∀ ops : List CacheOp, cacheInv (runCacheOps initialCacheState ops)) ∧
    (∀ (s : TermCacheState) (enable : Bool) (now : Int),
      (setCache s enable now).1 = decide (0 < s.useCache)) := by
  constructor
  · have hrun : ∀ (ops : List CacheOp) (s : TermCacheState), cacheInv s →
        cacheInv (runCacheOps s ops) := by
      intro ops
      induction ops with
      | nil => intro s h; exact h
      | cons op rest ih =>
        intro s h
        have hstep : cacheInv (cacheStep s op) := by
          cases op with
          | set enable now => exact setCache_preserves h enable now
          | get docId result now => exact getTermCacheStep_preserves h now docId result
        exact ih _ hstep
    intro ops
    exact hrun ops initialCacheState ⟨by simp [initialCacheState], fun _ => rfl⟩
  · intro s enable now
    cases enable with
    | true => rfl
    | false => rfl

end CdrDocs

namespace CdrDb

/-! ## The SQL query builder (`Query`, src/Python/cdrdb2.py lines 98-677)

The builder state gathered by the fluent methods is embedded as a
(mutually) inductive syntax tree: a query holds its base table (a name
or an aliased nested query), selected columns, joins, WHERE conditions,
grouping, HAVING conditions, ordering, unions, optional row limit,
DISTINCT flag, optional INTO target, optional alias, and the `_outer`
flag set by `outer()`.

A condition (`where`/`having`/join condition) is a trusted SQL string, a
`Query.Condition(column, value, test)` triple, or a `Query.Or` set whose
arms are single conditions or sequences (AND-groups).  A condition value
is a single parameter, a sequence of parameters (for IN/NOT IN), or a
nested query.  Parameter payloads are embedded as strings: the code
treats them opaquely, only their identity and order matter.

All `raise` statements of the rendering path are embedded as
`Except.error` with the messages of the source (quote characters
dropped). -/

mutual

inductive TableRef where
  | plain (name : String)
  | sub (q : Query)

inductive CondValue where
  | single (p : String)
  | many (ps : List String)
  | sub (q : Query)

inductive Cond where
  | lit (sql : String)
  | cmp (column : String) (value : CondValue) (test : String)
  | disj (arms : List OrArm)

inductive OrArm where
  | one (c : Cond)
  | group (cs : List Cond)

inductive Join where
  | mk (table : TableRef) (outer : Bool) (conditions : List Cond)

inductive Query where
  | mk (table : TableRef) (columns : List String) (joins : List Join)
       (conds : List Cond) (groupBy : List String)
       (havingConds : List Cond) (orderBy : List String)
       (unions : List Query) (limit : Option Int) (unique : Bool)
       (intoTable : Option String) (aliasName : Option String)
       (outerFlag : Bool)

end

def Join.table : Join → TableRef
  | .mk t _ _ => t

def Join.outer : Join → Bool
  | .mk _ o _ => o

def Join.conditions : Join → List Cond
  | .mk _ _ cs => cs

def Query.table : Query → TableRef
  | .mk t _ _ _ _ _ _ _ _ _ _ _ _ => t

def Query.columns : Query → List String
  | .mk _ c _ _ _ _ _ _ _ _ _ _ _ => c

def Query.joins : Query → List Join
  | .mk _ _ j _ _ _ _ _ _ _ _ _ _ => j

def Query.conds : Query → List Cond
  | .mk _ _ _ w _ _ _ _ _ _ _ _ _ => w

def Query.groupBy : Query → List String
  | .mk _ _ _ _ g _ _ _ _ _ _ _ _ => g

def Query.havingConds : Query → List Cond
  | .mk _ _ _ _ _ h _ _ _ _ _ _ _ => h

def Query.orderBy : Query → List String
  | .mk _ _ _ _ _ _ o _ _ _ _ _ _ => o

def Query.unions : Query → List Query
  | .mk _ _ _ _ _ _ _ u _ _ _ _ _ => u

def Query.limit : Query → Option Int
  | .mk _ _ _ _ _ _ _ _ l _ _ _ _ => l

def Query.unique : Query → Bool
  | .mk _ _ _ _ _ _ _ _ _ u _ _ _ => u

def Query.intoTable : Query → Option String
  | .mk _ _ _ _ _ _ _ _ _ _ i _ _ => i

def Query.aliasName : Query → Option String
  | .mk _ _ _ _ _ _ _ _ _ _ _ a _ => a

def Query.outerFlag : Query → Bool
  | .mk _ _ _ _ _ _ _ _ _ _ _ _ o => o

/-- Embeds `Query.__init__(table, *columns)` (lines 121-149): everything else
starts empty. -/
def Query.new (table : String) (columns : List String) : Query :=
  .mk (.plain table) columns [] [] [] [] [] [] none false none none false

/-- Embeds `Query.where(condition)` (lines 185-194). -/
def Query.whereAdd : Query → Cond → Query
  | .mk t c j w g h o u l uq i a of, cond =>
    .mk t c j (w ++ [cond]) g h o u l uq i a of

/-- Embeds `Query.join(table, *conditions)` (lines 158-170): an inner join. -/
def Query.joinAdd : Query → TableRef → List Cond → Query
  | .mk t c j w g h o u l uq i a of, tbl, conds =>
    .mk t c (j ++ [Join.mk tbl false conds]) w g h o u l uq i a of

/-- Embeds `Query.outer(table, *conditions)` (lines 172-183): a left outer
join; also sets the `_outer` padding flag. -/
def Query.outerAdd : Query → TableRef → List Cond → Query
  | .mk t c j w g h o u l uq i a _of, tbl, conds =>
    .mk t c (j ++ [Join.mk tbl true conds]) w g h o u l uq i a true

/-- Embeds `Query.group(*columns)` (lines 196-206). -/
def Query.groupAdd : Query → List String → Query
  | .mk t c j w g h o u l uq i a of, cols =>
    .mk t c j w (g ++ cols) h o u l uq i a of

/-- Embeds `Query.having(condition)` (lines 208-217). -/
def Query.havingAdd : Query → Cond → Query
  | .mk t c j w g h o u l uq i a of, cond =>
    .mk t c j w g (h ++ [cond]) o u l uq i a of

/-- Embeds `Query.union(query)` (lines 219-235). -/
def Query.unionAdd : Query → Query → Query
  | .mk t c j w g h o u l uq i a of, q2 =>
    .mk t c j w g h o (u ++ [q2]) l uq i a of

/-- Embeds `Query.limit(n)` (lines 258-266); the non-integer check is static
here (the argument is an `Int`). -/
def Query.limitSet : Query → Int → Query
  | .mk t c j w g h o u _ uq i a of, n =>
    .mk t c j w g h o u (some n) uq i a of

/-- Embeds `Query.unique()` (lines 268-274). -/
def Query.uniqueSet : Query → Query
  | .mk t c j w g h o u l _ i a of =>
    .mk t c j w g h o u l true i a of

/-- Embeds `Query.into(name)` (lines 348-357). -/
def Query.intoSet : Query → String → Query
  | .mk t c j w g h o u l uq _ a of, name =>
    .mk t c j w g h o u l uq (some name) a of

/-- Embeds `Query.alias(a)` (lines 305-324). -/
def Query.aliasSet : Query → String → Query
  | .mk t c j w g h o u l uq i _ of, a =>
    .mk t c j w g h o u l uq i (some a) of

/-! ### String helpers mirroring the Python formatting primitives -/

/-- Python `sep.join(pieces)`. -/
def joinSep (sep : String) : List String → String
  | [] => ""
  | [s] => s
  | s :: rest => s ++ sep ++ joinSep sep rest

/-- The final `"\n".join(query)` of `Query.__str__` (line 461). -/
def joinLines (ls : List String) : String :=
  joinSep "\n" ls

/-- Python `s[-k:]`: the last `k` characters (all of `s` when `k = 0`,
matching the Python empty negative index). -/
def pyTakeLast (s : String) (k : Nat) : String :=
  if k = 0 then s else String.mk (s.data.drop (s.data.length - k))

/-- Embeds `Query._align(keyword, rest)` (lines 341-346): right-align the
keyword in a field of `_indent` characters, then a space, then the
rest. -/
def align (ind : Nat) (keyword rest : String) : String :=
  pyTakeLast (String.mk (List.replicate ind ' ') ++ keyword) ind ++ " " ++ rest

/-- Embeds `Query.indent(block, n=4)` (lines 590-600) at its default width:
prefix each line of the block with four spaces.  (The blocks this code
indents never end in a newline, so the `end` preservation of the source
is the empty string.) -/
def indentBlock (block : String) : String :=
  joinSep "\n" ((CdrDocs.splitOnChar '\n' block.data).map
    (fun line => String.mk (List.replicate 4 ' ' ++ line)))

/-- Python truthiness of an optional string (`None` and `""` falsy). -/
def pyStrOpt : Option String → Option String
  | some s => if s = "" then none else some s
  | none => none

/-- Python `str.upper()` (ASCII, which is all the tests use). -/
def pyUpper (s : String) : String :=
  String.mk (s.data.map Char.toUpper)

/-- The `_indent` bump of `Query.__str__` (lines 394-402): for each
clause present whose keyword is wider than the current indent, widen
the indent to that keyword. -/
def bumpIndent (ind : Nat) (present : Bool) (kw : String) : Nat :=
  if present then
    (if ind < kw.length then kw.length else ind)
  else ind

/-- The `SELECT[ DISTINCT][ TOP n]` prefix (lines 389-393). -/
def selectKeyword (q : Query) : String :=
  "SELECT" ++ (if q.unique then " DISTINCT" else "") ++
    (match q.limit with
     | some n => " TOP " ++ toString n
     | none => "")

/-- The `_indent` computed for a query (lines 394-402). -/
def queryIndent (q : Query) : Nat :=
  bumpIndent
    (bumpIndent
      (bumpIndent (selectKeyword q).length (q.orderBy ≠ []) "ORDER BY")
      q.outerFlag "LEFT OUTER JOIN")
    (q.groupBy ≠ []) "GROUP BY"

mutual

/-- Embeds `Query.__str__` (lines 369-464) minus its `_str` cache (the cache is
modelled separately as `strOp`): compute the indent, then append, in
this order, the SELECT line, the INTO clause, the FROM clause, the JOIN
clauses, the WHERE conditions, GROUP BY, HAVING, the UNION blocks, and
ORDER BY.  Returns the appended chunks (joined with newlines at the
end, as in the source) and the `_parms` list rebuilt by the same pass.
The source serializes clauses by mutating a shared list and `_parms`;
each serializer here returns its contribution and the appends become
concatenation in call order.  Union sub-queries contribute their text
but — as in the source, which never extends `_parms` in its union loop —
none of their parameters. -/
def renderQuery : Query → Except String (List String × List String)
  | q@(.mk table columns joins conds groupBy havingConds orderBy unions
        _limit _uniq intoTable _aliasName _outerFlag) =>
    let ind := queryIndent q
    let selectChunk := [align ind (selectKeyword q) (joinSep ", " columns)]
    let intoChunk := match pyStrOpt intoTable with
      | some t => [align ind "INTO" t]
      | none => []
    match renderFrom ind table with
    | .error e => .error e
    | .ok fromChunk =>
      match serializeJoins ind joins with
      | .error e => .error e
      | .ok (joinChunk, joinParms) =>
        match serializeConds ind "WHERE" conds with
        | .error e => .error e
        | .ok (whereChunk, whereParms) =>
          let groupChunk := if groupBy ≠ [] then
              [align ind "GROUP BY" (joinSep ", " groupBy)]
            else []
          match serializeConds ind "HAVING" havingConds with
          | .error e => .error e
          | .ok (havingChunk, havingParms) =>
            match renderUnions ind unions with
            | .error e => .error e
            | .ok unionChunk =>
              let orderChunk := if orderBy ≠ [] then
                  [align ind "ORDER BY" (joinSep ", " orderBy)]
                else []
              .ok (selectChunk ++ intoChunk ++ fromChunk ++ joinChunk ++
                     whereChunk ++ groupChunk ++ havingChunk ++
                     unionChunk ++ orderChunk,
                   joinParms ++ whereParms ++ havingParms)

/-- The FROM clause (lines 409-428): a plain table name, or a nested
query which must carry an alias and must have no placeholders (SQL
Server cannot parameterize that position). -/
def renderFrom (ind : Nat) : TableRef → Except String (List String)
  | .plain name => .ok [align ind "FROM" name]
  | .sub nested =>
    match pyStrOpt nested.aliasName with
    | none => .error "Virtual tables must have an alias"
    | some a =>
      match renderQuery nested with
      | .error e => .error e
      | .ok (nlines, nparms) =>
        if nparms ≠ [] then
          .error "Placeholders not allowed in virtual table"
        else
          .ok [align ind "FROM" "(", indentBlock (joinLines nlines ++ ") " ++ a)]

/-- The JOIN clauses in insertion order (line 431-432). -/
def serializeJoins (ind : Nat) :
    List Join → Except String (List String × List String)
  | [] => .ok ([], [])
  | j :: rest =>
    match serializeJoin ind j with
    | .error e => .error e
    | .ok (ls, ps) =>
      match serializeJoins ind rest with
      | .error e => .error e
      | .ok (ls2, ps2) => .ok (ls ++ ls2, ps ++ ps2)

/-- Embeds `Query._serialize_join` (lines 557-588): the join keyword and table
(nested queries need an alias and must be placeholder-free), then the ON
conditions, the first keyworded ON, the rest AND. -/
def serializeJoin (ind : Nat) : Join → Except String (List String × List String)
  | .mk tbl outerJ jconds =>
    match renderJoinTable ind (if outerJ then "LEFT OUTER JOIN" else "JOIN") tbl with
    | .error e => .error e
    | .ok tblLines =>
      match serializeConds ind "ON" jconds with
      | .error e => .error e
      | .ok (condLines, condParms) => .ok (tblLines ++ condLines, condParms)

/-- The table expression of a join (lines 563-582). -/
def renderJoinTable (ind : Nat) (kw : String) :
    TableRef → Except String (List String)
  | .plain name => .ok [align ind kw name]
  | .sub nested =>
    match pyStrOpt nested.aliasName with
    | none => .error "resultset expression without alias"
    | some a =>
      match renderQuery nested with
      | .error e => .error e
      | .ok (nlines, nparms) =>
        if nparms ≠ [] then
          .error "Placeholders not allowed in joined resultset expression"
        else
          .ok [align ind kw "(", indentBlock (joinLines nlines ++ ") " ++ a)]

/-- A keyword-threaded condition list (the WHERE loop of lines 435-438,
the HAVING loop of lines 445-449, the ON loop of lines 584-588): the
first condition is introduced by `kw`, the rest by AND. -/
def serializeConds (ind : Nat) (kw : String) :
    List Cond → Except String (List String × List String)
  | [] => .ok ([], [])
  | c :: rest =>
    match serializeCond ind kw c "" "" with
    | .error e => .error e
    | .ok (ls, ps) =>
      match serializeConds ind "AND" rest with
      | .error e => .error e
      | .ok (ls2, ps2) => .ok (ls ++ ls2, ps ++ ps2)

/-- Embeds `Query._serialize_condition` (lines 496-555): an `Or` set is handed
off with an opening parenthesis prepended to the prefix; a plain string
is emitted between prefix and suffix; a `Condition` renders
`column prefix test` and then a nested-query value (parenthesized,
optionally aliased, parameters spliced in), an IN/NOT IN value list
(one `%s` placeholder per value; a bare value is wrapped in a
one-element list; an empty list fails), or a single `%s` placeholder
(a sequence under any other test fails). -/
def serializeCond (ind : Nat) (kw : String) (c : Cond) (pfx sfx : String) :
    Except String (List String × List String) :=
  match c with
  | .disj arms => serializeOrArms ind kw arms ("(" ++ pfx) sfx
  | .lit s => .ok ([align ind kw (pfx ++ s ++ sfx)], [])
  | .cmp col v test =>
    let testStr := col ++ " " ++ pfx ++ test
    match v with
    | .sub nested =>
      match renderQuery nested with
      | .error e => .error e
      | .ok (nlines, nparms) =>
        let aliasPart := match pyStrOpt nested.aliasName with
          | some a => " " ++ a
          | none => ""
        .ok ([align ind kw (testStr ++ " ("),
              indentBlock (joinLines nlines ++ ")" ++ aliasPart ++ sfx)],
             nparms)
    | .single p =>
      if pyUpper test = "IN" ∨ pyUpper test = "NOT IN" then
        .ok ([align ind kw (testStr ++ " (" ++
               joinSep ", " (List.replicate 1 "%s") ++ ")" ++ sfx)], [p])
      else
        .ok ([align ind kw (testStr ++ " %s" ++ sfx)], [p])
    | .many ps =>
      if pyUpper test = "IN" ∨ pyUpper test = "NOT IN" then
        if ps = [] then
          .error (pyUpper test ++ " test with no values")
        else
          .ok ([align ind kw (testStr ++ " (" ++
                 joinSep ", " (List.replicate ps.length "%s") ++ ")" ++ sfx)],
               ps)
      else
        .error "Unexpected sequence of values"

/-- Embeds `Query._serialize_or_set` (lines 466-494): arms joined by OR (the
first one under the inherited keyword), sequence arms AND-joined in
place, the opening parenthesis carried by the first condition emitted
and the closing one by the last. -/
def serializeOrArms (ind : Nat) (kw : String) (arms : List OrArm)
    (openParen sfx : String) : Except String (List String × List String) :=
  match arms with
  | [] => .ok ([], [])
  | [arm] =>
    match arm with
    | .one c => serializeCond ind kw c openParen (sfx ++ ")")
    | .group cs => serializeAndGroup ind kw cs openParen (sfx ++ ")")
  | arm :: rest =>
    match (match arm with
      | .one c => serializeCond ind kw c openParen ""
      | .group cs => serializeAndGroup ind kw cs openParen "") with
    | .error e => .error e
    | .ok (ls, ps) =>
      match serializeOrArms ind "OR" rest "" sfx with
      | .error e => .error e
      | .ok (ls2, ps2) => .ok (ls ++ ls2, ps ++ ps2)

/-- A sequence argument of `Query.Or`: its conditions are AND-joined
(first one under the inherited keyword); only the last condition of the
last arm carries the set-closing parenthesis, passed here as
`closeAtEnd`. -/
def serializeAndGroup (ind : Nat) (kw : String) (cs : List Cond)
    (openParen closeAtEnd : String) :
    Except String (List String × List String) :=
  match cs with
  | [] => .ok ([], [])
  | [c] => serializeCond ind kw c openParen closeAtEnd
  | c :: rest =>
    match serializeCond ind kw c openParen "" with
    | .error e => .error e
    | .ok (ls, ps) =>
      match serializeAndGroup ind "AND" rest "" closeAtEnd with
      | .error e => .error e
      | .ok (ls2, ps2) => .ok (ls ++ ls2, ps ++ ps2)

/-- The UNION blocks (lines 452-454): `UNION ` then the whole rendered
sub-query as one chunk; the sub-query can fail to render, and its
parameters are dropped (the source never extends `_parms` here). -/
def renderUnions (ind : Nat) : List Query → Except String (List String)
  | [] => .ok []
  | u :: rest =>
    match renderQuery u with
    | .error e => .error e
    | .ok (nlines, _nparms) =>
      match renderUnions ind rest with
      | .error e => .error e
      | .ok ls2 => .ok ([align ind "UNION" "", joinLines nlines] ++ ls2)

end

/-- The object state relevant to `Query.__str__` caching: the clauses,
the cached rendering `_str` (`None` until first render, reset to `None`
by every mutator), and the `_parms` list. -/
structure QueryState where
  spec : Query
  cachedStr : Option String
  parms : List String

/-- Python truthiness of `self._str` (line 382): `None` and the empty
string are both falsy. -/
def pyTruthyStr : Option String → Bool
  | none => false
  | some s => s ≠ ""

/-- Embeds `Query.__str__` (lines 369-464) with its cache: return the cached
string if it is truthy; otherwise rebuild `_parms` and the SQL, cache
the SQL, and return it. -/
def strOp (s : QueryState) : Except String (String × QueryState) :=
  if pyTruthyStr s.cachedStr then
    .ok (s.cachedStr.getD "", s)
  else
    match renderQuery s.spec with
    | .error e => .error e
    | .ok (lines, parms) =>
      let sql := joinLines lines
      .ok (sql, { s with cachedStr := some sql, parms := parms })

/-- Embeds `Query.parms()` (lines 326-339): render first if there is no cached
string, then hand back `_parms`. -/
def parmsOp (s : QueryState) : Except String (List String × QueryState) :=
  match strOp s with
  | .error e => .error e
  | .ok (_, s2) => .ok (s2.parms, s2)

/-- Whether the embedded Python call raised. -/
def exceptIsError {α : Type} : Except String α → Bool
  | .error _ => true
  | .ok _ => false

/-! ### C7: empty IN-lists -/

/-- Serializing a `Condition` whose test is IN/NOT IN and whose value
list is empty always fails, whatever keyword, prefix and suffix the
position supplies. -/
theorem serializeCond_empty_in {ind : Nat} {kw col test pfx sfx : String}
    (htest : pyUpper test = "IN" ∨ pyUpper test = "NOT IN") :
    serializeCond ind kw (Cond.cmp col (.many []) test) pfx sfx =
      .error (pyUpper test ++ " test with no values") := by
  rw [serializeCond]
  simp [htest]

/-- If a keyword-threaded condition list serializes successfully, every
one of its conditions serializes successfully under the keyword its
position received. -/
theorem serializeConds_ok_mem {ind : Nat} {kw : String} {conds : List Cond}
    {r : List String × List String}
    (h : serializeConds ind kw conds = .ok r) :
    ∀ c ∈ conds, ∃ kw2 r2, serializeCond ind kw2 c "" "" = .ok r2 := by
  induction conds generalizing kw r with
  | nil => intro c hc; simp at hc
  | cons c0 rest ih =>
    intro c hc
    rw [serializeConds] at h
    cases h1 : serializeCond ind kw c0 "" "" with
    | error e => rw [h1] at h; simp at h
    | ok v =>
      rw [h1] at h
      cases h2 : serializeConds ind "AND" rest with
      | error e => rw [h2] at h; simp at h
      | ok v2 =>
        rcases List.mem_cons.mp hc with rfl | hmem
        · exact ⟨kw, v, h1⟩
        · exact ih h2 c hmem

/-- C7 counterexample: constructing a `Condition` with test `IN` and an
empty value list, and adding it to a query with `where()`, raises
nothing — `Condition.__init__` (lines 620-623) and `Query.where` (lines
185-194) perform no validation, so construction yields a perfectly
well-formed builder object holding the empty IN-list.  The failure only
appears when the query is rendered. -/
theorem C7_empty_in_counterexample :
    (Query.new "t" ["c"]).whereAdd (Cond.cmp "i" (.many []) "IN") =
      Query.mk (.plain "t") ["c"] [] [Cond.cmp "i" (.many []) "IN"]
        [] [] [] [] none false none none false ∧
    renderQuery ((Query.new "t" ["c"]).whereAdd
        (Cond.cmp "i" (.many []) "IN")) =
      .error "IN test with no values" := by
  exact ⟨rfl, by decide⟩

/-- C7 amended: an empty IN/NOT IN value list makes the query fail when
it is first rendered (`str()`, which `execute` performs before sending
any SQL), not at `Condition` construction time, which performs no
validation. -/
theorem C7_empty_in_render_fails (q : Query) (col test : String)
    (hmem : Cond.cmp col (.many []) test ∈ q.conds)
    (htest : pyUpper test = "IN" ∨ pyUpper test = "NOT IN") :
    exceptIsError (renderQuery q) = true := by
  cases hr : renderQuery q with
  | error e => rfl
  | ok r =>
    exfalso
    obtain ⟨table, columns, joins, conds, groupBy, havingConds, orderBy,
      unions, limit, uniq, intoTable, aliasName, outerFlag⟩ := q
    rw [renderQuery] at hr
    simp only [Query.conds] at hmem
    cases hf : renderFrom (queryIndent (Query.mk table columns joins conds
        groupBy havingConds orderBy unions limit uniq intoTable aliasName
        outerFlag)) table with
    | error e => rw [hf] at hr; simp at hr
    | ok fromChunk =>
      rw [hf] at hr
      cases hj : serializeJoins (queryIndent (Query.mk table columns joins
          conds groupBy havingConds orderBy unions limit uniq intoTable
          aliasName outerFlag)) joins with
      | error e => rw [hj] at hr; simp at hr
      | ok jr =>
        rw [hj] at hr
        cases hw : serializeConds (queryIndent (Query.mk table columns joins
            conds groupBy havingConds orderBy unions limit uniq intoTable
            aliasName outerFlag)) "WHERE" conds with
        | error e => rw [hw] at hr; simp at hr
        | ok wr =>
          obtain ⟨kw2, r2, hok⟩ := serializeConds_ok_mem hw _ hmem
          rw [serializeCond_empty_in htest] at hok
          simp at hok

/-- Witness for C7 amended at the counterexample query. -/
theorem C7_empty_in_render_fails_witness :
    exceptIsError (renderQuery ((Query.new "t" ["c"]).whereAdd
        (Cond.cmp "i" (.many []) "IN"))) = true :=
  C7_empty_in_render_fails
    ((Query.new "t" ["c"]).whereAdd (Cond.cmp "i" (.many []) "IN"))
    "i" "IN" (List.mem_singleton.mpr rfl) (Or.inl rfl)

/-! ### C4: the fixed rendering order

The four infallible clause chunks, restated per the spec so the
decomposition theorem can name them independently of `renderQuery`. -/

/-- The SELECT line: DISTINCT and TOP folded into the keyword, then the
selected columns, comma-joined. -/
def selectChunkOf (q : Query) : List String :=
  [align (queryIndent q) (selectKeyword q) (joinSep ", " q.columns)]

/-- The INTO clause, present only when a (non-empty) target is set. -/
def intoChunkOf (q : Query) : List String :=
  match pyStrOpt q.intoTable with
  | some t => [align (queryIndent q) "INTO" t]
  | none => []

/-- The GROUP BY clause, present only when grouping columns exist. -/
def groupChunkOf (q : Query) : List String :=
  if q.groupBy ≠ [] then
    [align (queryIndent q) "GROUP BY" (joinSep ", " q.groupBy)]
  else []

/-- The ORDER BY clause, present only when ordering columns exist. -/
def orderChunkOf (q : Query) : List String :=
  if q.orderBy ≠ [] then
    [align (queryIndent q) "ORDER BY" (joinSep ", " q.orderBy)]
  else []

/-- Decomposition of a successful rendering into its clause chunks, in
the order `__str__` emits them (shared between the rendering-order
theorem and the cache-nonemptiness argument). -/
theorem renderQuery_ok_decomp :
    ∀ (q : Query) (lines parms : List String),
      renderQuery q = .ok (lines, parms) →
      ∃ fromChunk joinChunk joinParms whereChunk whereParms havingChunk
          havingParms unionChunk,
        renderFrom (queryIndent q) q.table = .ok fromChunk ∧
        serializeJoins (queryIndent q) q.joins = .ok (joinChunk, joinParms) ∧
        serializeConds (queryIndent q) "WHERE" q.conds =
          .ok (whereChunk, whereParms) ∧
        serializeConds (queryIndent q) "HAVING" q.havingConds =
          .ok (havingChunk, havingParms) ∧
        renderUnions (queryIndent q) q.unions = .ok unionChunk ∧
        lines = selectChunkOf q ++ intoChunkOf q ++ fromChunk ++ joinChunk ++
          whereChunk ++ groupChunkOf q ++ havingChunk ++ unionChunk ++
          orderChunkOf q ∧
        parms = joinParms ++ whereParms ++ havingParms := by
  intro q lines parms h
  obtain ⟨table, columns, joins, conds, groupBy, havingConds, orderBy,
    unions, limit, uniq, intoTable, aliasName, outerFlag⟩ := q
  rw [renderQuery] at h
  cases hf : renderFrom (queryIndent (Query.mk table columns joins conds
      groupBy havingConds orderBy unions limit uniq intoTable aliasName
      outerFlag)) table with
  | error e => rw [hf] at h; simp at h
  | ok fromChunk =>
    rw [hf] at h
    cases hj : serializeJoins (queryIndent (Query.mk table columns joins
        conds groupBy havingConds orderBy unions limit uniq intoTable
        aliasName outerFlag)) joins with
    | error e => rw [hj] at h; simp at h
    | ok jr =>
      rw [hj] at h
      cases hw : serializeConds (queryIndent (Query.mk table columns joins
          conds groupBy havingConds orderBy unions limit uniq intoTable
          aliasName outerFlag)) "WHERE" conds with
      | error e => rw [hw] at h; simp at h
      | ok wr =>
        rw [hw] at h
        cases hh : serializeConds (queryIndent (Query.mk table columns
            joins conds groupBy havingConds orderBy unions limit uniq
            intoTable aliasName outerFlag)) "HAVING" havingConds with
        | error e => rw [hh] at h; simp at h
        | ok hr2 =>
          rw [hh] at h
          cases hu : renderUnions (queryIndent (Query.mk table columns
              joins conds groupBy havingConds orderBy unions limit uniq
              intoTable aliasName outerFlag)) unions with
          | error e => rw [hu] at h; simp at h
          | ok unionChunk =>
            rw [hu] at h
            simp only [Except.ok.injEq, Prod.mk.injEq] at h
            obtain ⟨hlines, hparms⟩ := h
            refine ⟨fromChunk, jr.1, jr.2, wr.1, wr.2, hr2.1, hr2.2,
              unionChunk, hf, hj, hw, hh, hu, ?_, ?_⟩
            · rw [← hlines]
              rfl
            · rw [← hparms]

/-- C4: whenever a query renders successfully, the rendered chunk list
is exactly the concatenation, in this fixed order, of: the SELECT line
(with DISTINCT and TOP when set), the INTO clause, the FROM clause
(plain or parenthesized aliased subquery), the JOIN clauses, the WHERE
conditions, GROUP BY, HAVING, the UNION blocks, and ORDER BY — and the
parameter list is the join parameters, then the WHERE parameters, then
the HAVING parameters.  The final two conjuncts pin down the internal
order of the two list-shaped blocks: JOIN clauses concatenate in
insertion order, and the first WHERE condition is introduced by the
WHERE keyword while the remainder are introduced by AND. -/
theorem C4_render_order :
    (∀ (q : Query) (lines parms : List String),
      renderQuery q = .ok (lines, parms) →
      ∃ fromChunk joinChunk joinParms whereChunk whereParms havingChunk
          havingParms unionChunk,
        renderFrom (queryIndent q) q.table = .ok fromChunk ∧
        serializeJoins (queryIndent q) q.joins = .ok (joinChunk, joinParms) ∧
        serializeConds (queryIndent q) "WHERE" q.conds =
          .ok (whereChunk, whereParms) ∧
        serializeConds (queryIndent q) "HAVING" q.havingConds =
          .ok (havingChunk, havingParms) ∧
        renderUnions (queryIndent q) q.unions = .ok unionChunk ∧
        lines = selectChunkOf q ++ intoChunkOf q ++ fromChunk ++ joinChunk ++
          whereChunk ++ groupChunkOf q ++ havingChunk ++ unionChunk ++
          orderChunkOf q ∧
        parms = joinParms ++ whereParms ++ havingParms) ∧
    (∀ (ind : Nat) (j : Join) (js : List Join) (r : List String × List String),
      serializeJoins ind (j :: js) = .ok r →
      ∃ r1 r2, serializeJoin ind j = .ok r1 ∧
        serializeJoins ind js = .ok r2 ∧
        r = (r1.1 ++ r2.1, r1.2 ++ r2.2)) ∧
    (∀ (ind : Nat) (c : Cond) (cs : List Cond) (r : List String × List String),
      serializeConds ind "WHERE" (c :: cs) = .ok r →
      ∃ r1 r2, serializeCond ind "WHERE" c "" "" = .ok r1 ∧
        serializeConds ind "AND" cs = .ok r2 ∧
        r = (r1.1 ++ r2.1, r1.2 ++ r2.2)) := by
  refine ⟨renderQuery_ok_decomp, ?_, ?_⟩
  · intro ind j js r h
    rw [serializeJoins] at h
    cases h1 : serializeJoin ind j with
    | error e => rw [h1] at h; simp at h
    | ok r1 =>
      rw [h1] at h
      cases h2 : serializeJoins ind js with
      | error e => rw [h2] at h; simp at h
      | ok r2 =>
        rw [h2] at h
        simp only [Except.ok.injEq] at h
        exact ⟨r1, r2, rfl, rfl, h.symm⟩
  · intro ind c cs r h
    rw [serializeConds] at h
    cases h1 : serializeCond ind "WHERE" c "" "" with
    | error e => rw [h1] at h; simp at h
    | ok r1 =>
      rw [h1] at h
      cases h2 : serializeConds ind "AND" cs with
      | error e => rw [h2] at h; simp at h
      | ok r2 =>
        rw [h2] at h
        simp only [Except.ok.injEq] at h
        exact ⟨r1, r2, rfl, rfl, h.symm⟩

/-- The query of cdrdb2.py test 4 (lines 722-725): a left outer join
with a WHERE restriction. -/
def c4ExampleQuery : Query :=
  ((Query.new "t1 a" ["a.i", "b.n"]).outerAdd
      (.plain "t2 b") [.lit "b.i = a.i"]).whereAdd (.lit "b.n IS NULL")

/-- Witness for C4 at the test-4 query. -/
theorem C4_render_order_witness :
    ∃ fromChunk joinChunk joinParms whereChunk whereParms havingChunk
        havingParms unionChunk,
      renderFrom (queryIndent c4ExampleQuery) c4ExampleQuery.table =
        .ok fromChunk ∧
      serializeJoins (queryIndent c4ExampleQuery) c4ExampleQuery.joins =
        .ok (joinChunk, joinParms) ∧
      serializeConds (queryIndent c4ExampleQuery) "WHERE"
          c4ExampleQuery.conds = .ok (whereChunk, whereParms) ∧
      serializeConds (queryIndent c4ExampleQuery) "HAVING"
          c4ExampleQuery.havingConds = .ok (havingChunk, havingParms) ∧
      renderUnions (queryIndent c4ExampleQuery) c4ExampleQuery.unions =
        .ok unionChunk ∧
      ["         SELECT a.i, b.n",
       "           FROM t1 a",
       "LEFT OUTER JOIN t2 b",
       "             ON b.i = a.i",
       "          WHERE b.n IS NULL"] =
        selectChunkOf c4ExampleQuery ++ intoChunkOf c4ExampleQuery ++
          fromChunk ++ joinChunk ++ whereChunk ++
          groupChunkOf c4ExampleQuery ++ havingChunk ++ unionChunk ++
          orderChunkOf c4ExampleQuery ∧
      ([] : List String) = joinParms ++ whereParms ++ havingParms :=
  C4_render_order.1 c4ExampleQuery
    ["         SELECT a.i, b.n",
     "           FROM t1 a",
     "LEFT OUTER JOIN t2 b",
     "             ON b.i = a.i",
     "          WHERE b.n IS NULL"] [] (by decide)

/-! ### C5: render caching is idempotent -/

theorem joinSep_length_ge {s : String} {rest : List String} :
    s.length ≤ (joinSep "\n" (s :: rest)).length := by
  cases rest with
  | nil => simp [joinSep]
  | cons b t =>
    show s.length ≤ (s ++ "\n" ++ joinSep "\n" (b :: t)).length
    simp [String.length_append]
    omega

theorem align_length_pos (ind : Nat) (kw rest : String) :
    1 ≤ (align ind kw rest).length := by
  unfold align
  rw [String.length_append, String.length_append]
  have hone : (" " : String).length = 1 := rfl
  omega

/-- A successful rendering always starts with the SELECT line. -/
theorem renderQuery_ok_head {q : Query} {lines parms : List String}
    (h : renderQuery q = .ok (lines, parms)) :
    ∃ rest, lines =
      align (queryIndent q) (selectKeyword q)
        (joinSep ", " q.columns) :: rest := by
  obtain ⟨fromChunk, joinChunk, joinParms, whereChunk, whereParms,
    havingChunk, havingParms, unionChunk, _, _, _, _, _, hlines, _⟩ :=
    renderQuery_ok_decomp q lines parms h
  exact ⟨_, by rw [hlines]; rfl⟩

theorem string_ne_empty_of_length {s : String} (h : 1 ≤ s.length) :
    ¬(s = "") := by
  intro he
  subst he
  simp at h

/-- The SQL produced by a successful render is never the empty string
(it starts with an aligned SELECT line), so it is truthy for the
`if self._str` cache test. -/
theorem renderQuery_sql_truthy {q : Query} {lines parms : List String}
    (h : renderQuery q = .ok (lines, parms)) :
    ¬(joinLines lines = "") := by
  obtain ⟨rest, hrest⟩ := renderQuery_ok_head h
  rw [hrest]
  unfold joinLines
  apply string_ne_empty_of_length
  calc 1 ≤ (align (queryIndent q) (selectKeyword q)
        (joinSep ", " q.columns)).length := align_length_pos _ _ _
    _ ≤ _ := joinSep_length_ge

/-- C5: rendering a query twice with no mutation in between returns
the byte-identical SQL string and leaves the object state — including
the `_parms` list — unchanged, and `parms()` after the second render
hands back exactly that list; the second call is served from the
`_str` cache. -/
theorem C5_render_idempotent (s0 : QueryState) (sql : String)
    (s1 : QueryState) (h : strOp s0 = .ok (sql, s1)) :
    strOp s1 = .ok (sql, s1) ∧ parmsOp s1 = .ok (s1.parms, s1) := by
  have hmain : strOp s1 = .ok (sql, s1) := by
    unfold strOp at h
    by_cases hc : pyTruthyStr s0.cachedStr = true
    · rw [if_pos hc] at h
      simp only [Except.ok.injEq, Prod.mk.injEq] at h
      obtain ⟨hsql, hs⟩ := h
      subst hs
      unfold strOp
      rw [if_pos hc, hsql]
    · rw [if_neg hc] at h
      cases hr : renderQuery s0.spec with
      | error e => rw [hr] at h; simp at h
      | ok lp =>
        rw [hr] at h
        simp only [Except.ok.injEq, Prod.mk.injEq] at h
        obtain ⟨hsql, hs⟩ := h
        have htruthy : pyTruthyStr s1.cachedStr = true := by
          rw [← hs]
          simp only [pyTruthyStr]
          rw [← hsql] at *
          have hne : ¬(joinLines lp.1 = "") :=
            renderQuery_sql_truthy
              (show renderQuery s0.spec = Except.ok (lp.1, lp.2) from
                by rw [hr])
          simpa using hne
        unfold strOp
        rw [if_pos htruthy, ← hs]
        simp [hsql]
  refine ⟨hmain, ?_⟩
  unfold parmsOp
  rw [hmain]

/-- Witness for C5: a first render of `SELECT c FROM t` caches the SQL;
the theorem then gives that the second render returns the identical
string and state. -/
theorem C5_render_idempotent_witness :
    strOp { spec := Query.new "t" ["c"],
            cachedStr := some "SELECT c\n  FROM t", parms := [] } =
      .ok ("SELECT c\n  FROM t",
        { spec := Query.new "t" ["c"],
          cachedStr := some "SELECT c\n  FROM t", parms := [] }) ∧
    parmsOp { spec := Query.new "t" ["c"],
              cachedStr := some "SELECT c\n  FROM t", parms := [] } =
      .ok ([],
        { spec := Query.new "t" ["c"],
          cachedStr := some "SELECT c\n  FROM t", parms := [] }) :=
  C5_render_idempotent
    { spec := Query.new "t" ["c"], cachedStr := none, parms := [] }
    "SELECT c\n  FROM t"
    { spec := Query.new "t" ["c"],
      cachedStr := some "SELECT c\n  FROM t", parms := [] }
    rfl

end CdrDb

-- Concrete evaluations of the embedded code, checked by the kernel.
example : CdrDb.renderQuery
    (((CdrDb.Query.new "t1 a" ["a.i", "b.n"]).outerAdd
        (.plain "t2 b") [.lit "b.i = a.i"]).whereAdd (.lit "b.n IS NULL"))
    = .ok (["         SELECT a.i, b.n",
            "           FROM t1 a",
            "LEFT OUTER JOIN t2 b",
            "             ON b.i = a.i",
            "          WHERE b.n IS NULL"], []) := by decide

-- Concrete evaluations of the embedded code, checked by the kernel.
example : CdrDocs.denylistSearch "delete from x" = true := by decide
example : CdrDocs.denylistSearch "DELETE FROM x" = false := by decide
example : CdrDocs.denylistSearch "alter table x" = false := by decide
example : CdrDocs.denylistSearch "x alter exec(" = true := by decide
example : CdrDocs.runSqlQuery "select title from document where id = ?~42"
    = .ok { query := "select title from document where id = ?",
            values := ["42"] } := by decide
example : CdrDocs.runSqlQuery "select title from document~42"
    = .error "wrong number of sql query placeholder values" := by decide
